import Mathlib

/-!
# Sluice core: shallow embedding and verification

A shallow embedding of the core of the Sluice message broker
(publish validation, writer-error mapping, credit-based flow control,
consumer-group connection registry, topic listing, group-commit batch
accumulation, and the notification bus), with theorems checking the
natural-language specification against the code.

Machine integers are modelled as `Nat`/`Int` with explicit `% 2^w`
where the Rust code wraps; time (`Instant`) is an explicit `Nat`
parameter; fallible operations return `Except`/`Option`.
-/

namespace Sluice

/-- gRPC status codes used by the handlers (tonic `Status` constructors
that appear in the source). -/
inductive StatusCode where
  | invalidArgument
  | resourceExhausted
  | unavailable
  | internal
  deriving DecidableEq, Repr

/-- A gRPC `Status`: a code plus a message, as built by
`Status::invalid_argument(..)`, `Status::unavailable(..)`, etc. -/
structure Status where
  code : StatusCode
  message : String
  deriving DecidableEq, Repr

/-- `Status::invalid_argument(msg)`. -/
def Status.invalidArgument (msg : String) : Status := ⟨.invalidArgument, msg⟩

/-- `Status::resource_exhausted(msg)`. -/
def Status.resourceExhausted (msg : String) : Status := ⟨.resourceExhausted, msg⟩

/-- `Status::unavailable(msg)`. -/
def Status.unavailable (msg : String) : Status := ⟨.unavailable, msg⟩

/-- `Status::internal(msg)`. -/
def Status.internal (msg : String) : Status := ⟨.internal, msg⟩

/-- Is `pre` a prefix of the second list? Model of byte-wise prefix
comparison used to implement Rust `str::contains`. -/
def listIsPre : List Char → List Char → Bool
  | [], _ => true
  | _ :: _, [] => false
  | a :: as, b :: bs => a == b && listIsPre as bs

/-- Does `needle` occur as a contiguous sublist of the second list?
Model of Rust `str::contains` on the character level (the messages
involved are ASCII, where byte and character substring search agree). -/
def listIsSub (needle : List Char) : List Char → Bool
  | [] => needle.isEmpty
  | b :: bs => listIsPre needle (b :: bs) || listIsSub needle bs

/-- Rust `hay.contains(needle)` for strings. -/
def strContains (hay needle : String) : Bool :=
  listIsSub needle.toList hay.toList

/-- `PublishRequest { topic, payload, attributes }` from the proto:
`attributes` is a string→string map, modelled as an association list. -/
structure PublishRequest where
  topic : String
  payload : List UInt8
  attributes : List (String × String)
  deriving Repr

/-- `MAX_PAYLOAD_SIZE` from `service/publish.rs`: 4 MiB. -/
def MAX_PAYLOAD_SIZE : Nat := 4 * 1024 * 1024

/-- The arguments `handle_publish` passes to `state.writer.publish(..)`
once validation has succeeded: topic, generated message id, optional
payload, optional JSON-serialized attributes. -/
structure Submission where
  topic : String
  message_id : String
  payload : Option (List UInt8)
  attributes : Option String
  deriving DecidableEq, Repr

/-- Allowed topic character test from
`crates/sluice-server/src/service/publish.rs`:
`c.is_ascii_alphanumeric() || c == '-' || c == '_' || c == '.'`. -/
def allowedTopicChar (c : Char) : Bool :=
  c.isAlphanum || c == '-' || c == '_' || c == '.'

/-- The attribute-serialization step of `handle_publish`:
`if req.attributes.is_empty() { None } else
{ Some(serde_json::to_string(&req.attributes).map_err(.. invalid_argument ..)?) }`.
`ser` stands for `serde_json::to_string` on the attribute map. -/
def attrsStage (ser : List (String × String) → Except String String)
    (attrs : List (String × String)) : Except Status (Option String) :=
  if attrs.isEmpty then .ok none
  else match ser attrs with
    | .ok s => .ok (some s)
    | .error e => .error (Status.invalidArgument ("invalid attributes: " ++ e))

/-- The validation-and-submission stage of `handle_publish` in
`crates/sluice-server/src/service/publish.rs` (the workspace crate copy).
`ser` stands for `serde_json::to_string` on the attribute map and
`message_id` for the generated id; both are external inputs to the pure
logic. Returns either the error `Status` or the `Submission` handed to
the writer. -/
def handle_publish (ser : List (String × String) → Except String String)
    (message_id : String) (req : PublishRequest) : Except Status Submission :=
  if req.topic.isEmpty then
    .error (Status.invalidArgument "topic cannot be empty")
  else if req.topic.utf8ByteSize > 255 then
    .error (Status.invalidArgument "topic name too long (max 255 characters)")
  else if !(req.topic.toList.all allowedTopicChar) then
    .error (Status.invalidArgument
      "topic name must contain only alphanumeric characters, dashes, underscores, or dots")
  else if req.payload.length > MAX_PAYLOAD_SIZE then
    .error (Status.resourceExhausted
      ("payload too large: " ++ toString req.payload.length ++ " bytes (max "
        ++ toString MAX_PAYLOAD_SIZE ++ " bytes)"))
  else
    match attrsStage ser req.attributes with
    | .error st => .error st
    | .ok attributes =>
        .ok { topic := req.topic, message_id := message_id,
              payload := if req.payload.isEmpty then none else some req.payload,
              attributes := attributes }

/-- The validation-and-submission stage of `handle_publish` in the root
crate (`src/service/publish.rs`). Identical to the workspace copy except
that it performs NO topic character-class check. -/
def handle_publish_root (ser : List (String × String) → Except String String)
    (message_id : String) (req : PublishRequest) : Except Status Submission :=
  if req.topic.isEmpty then
    .error (Status.invalidArgument "topic cannot be empty")
  else if req.topic.utf8ByteSize > 255 then
    .error (Status.invalidArgument "topic name too long (max 255 characters)")
  else if req.payload.length > MAX_PAYLOAD_SIZE then
    .error (Status.resourceExhausted
      ("payload too large: " ++ toString req.payload.length ++ " bytes (max "
        ++ toString MAX_PAYLOAD_SIZE ++ " bytes)"))
  else
    match attrsStage ser req.attributes with
    | .error st => .error st
    | .ok attributes =>
        .ok { topic := req.topic, message_id := message_id,
              payload := if req.payload.isEmpty then none else some req.payload,
              attributes := attributes }

/-- `WriterError` from `storage/writer.rs`, as matched in `handle_publish`. -/
inductive WriterError where
  | channelClosed
  | database (msg : String)
  | threadPanic
  deriving DecidableEq, Repr

/-- The writer's successful reply: assigned `(message_id, sequence, timestamp)`. -/
structure PublishResult where
  message_id : String
  sequence : Int
  timestamp : Int
  deriving Repr

/-- `PublishResponse { message_id, sequence : u64, timestamp : i64 }`. -/
structure PublishResponse where
  message_id : String
  sequence : Nat
  timestamp : Int
  deriving Repr

/-- The `map_err` closure in `handle_publish` that turns a `WriterError`
into a gRPC `Status` (identical in both copies of `publish.rs`). -/
def mapWriterError : WriterError → Status
  | .channelClosed => Status.unavailable "server is shutting down"
  | .database msg =>
      if strContains msg "disk" || strContains msg "full" then
        Status.unavailable ("storage error: " ++ msg)
      else
        Status.internal ("database error: " ++ msg)
  | .threadPanic => Status.internal "internal error"

/-- The tail of `handle_publish`: await the writer's reply, map errors via
`mapWriterError`, and on success build the `PublishResponse`
(`sequence as u64` is the i64→u64 cast, i.e. reduction mod 2^64). -/
def awaitWriter (r : Except WriterError PublishResult) : Except Status PublishResponse :=
  match r with
  | .error e => .error (mapWriterError e)
  | .ok res => .ok { message_id := res.message_id,
                     sequence := (res.sequence % (2 ^ 64 : Int)).toNat,
                     timestamp := res.timestamp }

/-! ## Credit balance (`crates/sluice-server/src/flow/credit.rs`)

The `AtomicU32` cell is modelled as a `Nat` (invariantly `< 2^32`) and
each operation in its linearized, single-interleaving semantics: the CAS
loops succeed on their first iteration when run without interference.
`fetch_add` wraps modulo 2^32, as Rust atomics do. -/

/-- `u32::MAX + 1`. -/
def U32_CARD : Nat := 2 ^ 32

namespace CreditBalance

/-- `AtomicU32::fetch_add(amount)`: stores the wrapped sum, returns the
previous value. Result is `(new stored value, returned previous value)`. -/
def fetchAdd (c n : Nat) : Nat × Nat :=
  ((c + n) % U32_CARD, c)

/-- `CreditBalance::add`: `self.credits.fetch_add(amount, SeqCst) + amount`.
The trailing `+ amount` is u32 addition (wrapping in release builds).
Result is `(new stored value, returned new total)`. -/
def add (c n : Nat) : Nat × Nat :=
  let r := fetchAdd c n
  (r.1, (r.2 + n) % U32_CARD)

/-- `CreditBalance::try_consume`: the load / zero-check / CAS loop, in
sequential semantics. Result is `(returned bool, new stored value)`. -/
def try_consume (c : Nat) : Bool × Nat :=
  if c = 0 then (false, c) else (true, c - 1)

/-- `CreditBalance::try_consume_many`: load `current`; if zero return 0;
otherwise `to_consume = current.min(amount)` and CAS down to
`current - to_consume`. Result is `(returned consumed count, new stored value)`. -/
def try_consume_many (c n : Nat) : Nat × Nat :=
  if c = 0 then (0, c)
  else
    let to_consume := min c n
    (to_consume, c - to_consume)

/-- `CreditBalance::available`: load. -/
def available (c : Nat) : Nat := c

/-- `CreditBalance::reset`: swap with 0, returning the prior value.
Result is `(returned prior value, new stored value)`. -/
def reset (c : Nat) : Nat × Nat := (c, 0)

end CreditBalance

/-! ## Connection registry (`src/service/registry.rs`)

`HashMap<ConsumerGroupKey, oneshot::Sender<()>>` under a mutex, modelled
as an association list from keys to sender identities (`Nat`), with a
fresh-identity counter. Mutexed operations are atomic, so plain state
passing is faithful. -/

/-- `ConsumerGroupKey { topic_id : i64, consumer_group : String }`. -/
structure ConsumerGroupKey where
  topic_id : Int
  consumer_group : String
  deriving DecidableEq, Repr

/-- The registry state: the `active` map (as an association list of
key/sender-identity pairs) plus a counter generating fresh sender
identities for `oneshot::channel()`. -/
structure ConnectionRegistry where
  active : List (ConsumerGroupKey × Nat)
  nextId : Nat
  deriving Repr

/-- `ConnectionRegistry::new()`. -/
def ConnectionRegistry.new : ConnectionRegistry := ⟨[], 0⟩

/-- `HashMap::get`-style lookup of the sender stored for a key. -/
def lookupSender (m : List (ConsumerGroupKey × Nat)) (k : ConsumerGroupKey) : Option Nat :=
  (m.find? (fun e => e.1 = k)).map (·.2)

/-- `HashMap::remove`: drop the entry for the key. -/
def removeKey (m : List (ConsumerGroupKey × Nat)) (k : ConsumerGroupKey) :
    List (ConsumerGroupKey × Nat) :=
  m.filter (fun e => !(e.1 = k : Bool))

/-- `ConnectionRegistry::register`: create a fresh channel, remove and
fire any existing sender for the key, insert the new sender. Result is
`(new state, receiver identity handed back, fired displaced sender)`. -/
def ConnectionRegistry.register (s : ConnectionRegistry) (k : ConsumerGroupKey) :
    ConnectionRegistry × Nat × Option Nat :=
  let tx := s.nextId
  let fired := lookupSender s.active k
  let active := (k, tx) :: removeKey s.active k
  (⟨active, s.nextId + 1⟩, tx, fired)

/-- `ConnectionRegistry::unregister`: `active.remove(key)` — unconditional
removal by key; the function takes no token and performs no identity
comparison. -/
def ConnectionRegistry.unregister (s : ConnectionRegistry) (k : ConsumerGroupKey) :
    ConnectionRegistry :=
  ⟨removeKey s.active k, s.nextId⟩

/-- An operation on the registry, for reasoning over arbitrary call
sequences. -/
inductive RegOp where
  | reg (k : ConsumerGroupKey)
  | unreg (k : ConsumerGroupKey)

/-- Apply one registry operation. -/
def applyRegOp (s : ConnectionRegistry) : RegOp → ConnectionRegistry
  | .reg k => (s.register k).1
  | .unreg k => s.unregister k

/-- Run a sequence of registry operations from the empty registry. -/
def runRegOps (ops : List RegOp) : ConnectionRegistry :=
  ops.foldl applyRegOp ConnectionRegistry.new

/-- Number of entries stored for a key. -/
def countKey (m : List (ConsumerGroupKey × Nat)) (k : ConsumerGroupKey) : Nat :=
  (m.filter (fun e => (e.1 = k : Bool))).length

/-! ## Batch accumulator (`crates/sluice-server/src/storage/batch.rs`)

`Instant` is modelled as a `Nat` timestamp; `Instant::now()` becomes an
explicit `now` argument and `start.elapsed()` becomes `now - start`
(truncated subtraction, sound because `Instant` is monotone). -/

/-- `BatchConfig { max_batch_size, max_batch_delay }`. -/
structure BatchConfig where
  max_batch_size : Nat
  max_batch_delay : Nat
  deriving Repr

/-- `BatchAccumulator<T>`: configuration, accumulated items, and the
instant the current batch started (set on the first push). -/
structure BatchAccumulator (T : Type) where
  config : BatchConfig
  items : List T
  batch_start : Option Nat

namespace BatchAccumulator

/-- `BatchAccumulator::new(config)`. -/
def new (T : Type) (config : BatchConfig) : BatchAccumulator T :=
  { config := config, items := [], batch_start := none }

/-- `BatchAccumulator::is_ready` evaluated at instant `now`:
empty → false; size trigger `items.len() >= max_batch_size`; else time
trigger `start.elapsed() >= max_batch_delay`. -/
def is_ready (b : BatchAccumulator T) (now : Nat) : Bool :=
  if b.items.isEmpty then false
  else if b.config.max_batch_size ≤ b.items.length then true
  else match b.batch_start with
    | some start => b.config.max_batch_delay ≤ now - start
    | none => false

/-- `BatchAccumulator::push` at instant `now`: record `batch_start` on the
first item, append, and report `is_ready`. Result is
`(new accumulator, returned bool)`. -/
def push (b : BatchAccumulator T) (now : Nat) (item : T) :
    BatchAccumulator T × Bool :=
  let b1 : BatchAccumulator T :=
    { b with
      batch_start := if b.batch_start.isNone then some now else b.batch_start,
      items := b.items ++ [item] }
  (b1, b1.is_ready now)

/-- `BatchAccumulator::drain`: reset `batch_start`, take the items out.
Result is `(new accumulator, returned items)`. -/
def drain (b : BatchAccumulator T) : BatchAccumulator T × List T :=
  ({ b with batch_start := none, items := [] }, b.items)

/-- Push a timestamped list of items in order. -/
def pushAll (b : BatchAccumulator T) (ps : List (Nat × T)) : BatchAccumulator T :=
  ps.foldl (fun acc p => (acc.push p.1 p.2).1) b

end BatchAccumulator

/-! ## Notification bus (`src/flow/notify.rs`)

`tokio::sync::broadcast` is modelled by the list of current receivers,
each with its queue of pending notifications (delivery under lagging is
the receivers' concern, not `notify`'s): `send` errors exactly when there
is no receiver, and otherwise appends the value to every receiver's
queue and returns the receiver count. -/

/-- `NewDataNotification { topic_id : i64, max_seq : i64 }`. -/
structure NewDataNotification where
  topic_id : Int
  max_seq : Int
  deriving DecidableEq, Repr

/-- The notification bus: the pending queue of each currently subscribed
receiver. -/
structure NotificationBus where
  receivers : List (List NewDataNotification)

/-- `NotificationBus::notify(topic_id, max_seq)`:
`self.sender.send(NewDataNotification { .. }).unwrap_or(0)`. With no
receivers `send` returns `Err` and the error is swallowed into 0;
otherwise every receiver's queue gets the value and the receiver count is
returned. Result is `(new bus, returned count)`. -/
def NotificationBus.notify (bus : NotificationBus) (topic_id max_seq : Int) :
    NotificationBus × Nat :=
  if bus.receivers.isEmpty then (bus, 0)
  else
    (⟨bus.receivers.map (fun q => q ++ [⟨topic_id, max_seq⟩])⟩,
     bus.receivers.length)

/-- `NotificationBus::receiver_count`. -/
def NotificationBus.receiver_count (bus : NotificationBus) : Nat :=
  bus.receivers.length

/-! ## Topic listing (`src/storage/reader.rs`, `crates/sluice-server/src/service/topics.rs`)

`ReaderPool::list_topics` runs
`SELECT name, created_at FROM topics ORDER BY name ASC`. The `topics`
table is modelled as a list of rows whose names are unique (the schema
declares `name UNIQUE`); `ORDER BY name ASC` is a stable sort by name. -/

/-- A row of the `topics` table: `(name, created_at)`. -/
structure TopicRow where
  name : String
  created_at : Int
  deriving DecidableEq, Repr

/-- Row comparison used by `ORDER BY name ASC`. -/
def byName (a b : TopicRow) : Prop := a.name ≤ b.name

instance : DecidableRel byName := fun a b => by
  unfold byName; infer_instance

instance : IsTotal TopicRow byName := ⟨fun a b => le_total a.name b.name⟩

instance : IsTrans TopicRow byName := ⟨fun _ _ _ h1 h2 => le_trans h1 h2⟩

/-- `ReaderPool::list_topics` on a table state: all rows, sorted
ascending by name. -/
def list_topics (table : List TopicRow) : List TopicRow :=
  List.insertionSort byName table

/-- `Topic { name, created_at }` from the proto. -/
structure Topic where
  name : String
  created_at : Int
  deriving DecidableEq, Repr

/-- `handle_list_topics`: map the rows returned by
`ReaderPool::list_topics` into proto `Topic`s, preserving order. -/
def handle_list_topics (table : List TopicRow) : List Topic :=
  (list_topics table).map (fun r => ⟨r.name, r.created_at⟩)

/-! ## Concrete takeover scenario (for the registry claims) -/

/-- First consumer registers `(1, "workers")` on the empty registry. -/
def takeover1 : ConnectionRegistry × Nat × Option Nat :=
  ConnectionRegistry.new.register ⟨1, "workers"⟩

/-- Second consumer registers the same key: a takeover displacing the
first. -/
def takeover2 : ConnectionRegistry × Nat × Option Nat :=
  takeover1.1.register ⟨1, "workers"⟩

end Sluice

/-! # Theorems -/

namespace Sluice

section RegistryLemmas

/-- `removeKey` on a cons cell. -/
lemma removeKey_cons (e : ConsumerGroupKey × Nat)
    (rest : List (ConsumerGroupKey × Nat)) (k : ConsumerGroupKey) :
    removeKey (e :: rest) k =
      if e.1 = k then removeKey rest k else e :: removeKey rest k := by
  by_cases h : e.1 = k <;> simp [removeKey, List.filter, h]

/-- `lookupSender` on a cons cell. -/
lemma lookupSender_cons (e : ConsumerGroupKey × Nat)
    (rest : List (ConsumerGroupKey × Nat)) (k : ConsumerGroupKey) :
    lookupSender (e :: rest) k =
      if e.1 = k then some e.2 else lookupSender rest k := by
  by_cases h : e.1 = k <;> simp [lookupSender, List.find?, h]

/-- `countKey` on a cons cell. -/
lemma countKey_cons (e : ConsumerGroupKey × Nat)
    (m : List (ConsumerGroupKey × Nat)) (k : ConsumerGroupKey) :
    countKey (e :: m) k = (if e.1 = k then 1 else 0) + countKey m k := by
  by_cases h : e.1 = k
  · simp [countKey, List.filter, h]; omega
  · simp [countKey, List.filter, h]

/-- Removing a key leaves no entry under that key. -/
lemma countKey_removeKey_self (m : List (ConsumerGroupKey × Nat))
    (k : ConsumerGroupKey) : countKey (removeKey m k) k = 0 := by
  induction m with
  | nil => rfl
  | cons e rest ih =>
      rw [removeKey_cons]
      by_cases h : e.1 = k
      · rw [if_pos h]; exact ih
      · rw [if_neg h, countKey_cons, if_neg h, ih]

/-- Removing one key does not increase the count under any key. -/
lemma countKey_removeKey_le (m : List (ConsumerGroupKey × Nat))
    (k0 k : ConsumerGroupKey) : countKey (removeKey m k0) k ≤ countKey m k :=
  ((List.filter_sublist m).filter _).length_le

/-- Looking up a removed key yields `none`. -/
lemma lookupSender_removeKey_self (m : List (ConsumerGroupKey × Nat))
    (k : ConsumerGroupKey) : lookupSender (removeKey m k) k = none := by
  induction m with
  | nil => rfl
  | cons e rest ih =>
      rw [removeKey_cons]
      by_cases h : e.1 = k
      · rw [if_pos h]; exact ih
      · rw [if_neg h, lookupSender_cons, if_neg h]; exact ih

/-- Removing a key leaves lookups under other keys unchanged. -/
lemma lookupSender_removeKey_other (m : List (ConsumerGroupKey × Nat))
    (k k' : ConsumerGroupKey) (hne : k' ≠ k) :
    lookupSender (removeKey m k) k' = lookupSender m k' := by
  induction m with
  | nil => rfl
  | cons e rest ih =>
      rw [removeKey_cons]
      by_cases h : e.1 = k
      · have hek : ¬(e.1 = k') := fun hc => hne (by rw [← hc]; exact h)
        rw [if_pos h, lookupSender_cons, if_neg hek, ih]
      · rw [if_neg h, lookupSender_cons, lookupSender_cons]
        by_cases h' : e.1 = k'
        · rw [if_pos h', if_pos h']
        · rw [if_neg h', if_neg h', ih]

/-- The at-most-one-entry-per-key invariant is preserved by every
registry operation. -/
lemma regInvariant_preserved (ops : List RegOp) (s : ConnectionRegistry)
    (h : ∀ k, countKey s.active k ≤ 1) :
    ∀ k, countKey (ops.foldl applyRegOp s).active k ≤ 1 := by
  induction ops generalizing s with
  | nil => exact h
  | cons op rest ih =>
      refine ih _ ?_
      intro k
      cases op with
      | reg k0 =>
          have hrem := countKey_removeKey_le s.active k0 k
          by_cases hk : k0 = k
          · subst hk
            simp [applyRegOp, ConnectionRegistry.register, countKey_cons,
              countKey_removeKey_self]
          · simp only [applyRegOp, ConnectionRegistry.register, countKey_cons, hk,
              if_false]
            exact le_trans (by simpa using hrem) (h k)
      | unreg k0 =>
          exact le_trans (countKey_removeKey_le s.active k0 k) (h k)

end RegistryLemmas

/-- C2 counterexample: `CreditBalance::add` does not saturate. At a
stored balance of `u32::MAX` adding 1 wraps the balance (and the
returned total) to 0 instead of returning `min(c + n, u32::MAX)`. -/
theorem creditBalance_add_not_saturating :
    (CreditBalance.add (U32_CARD - 1) 1).1 = 0 ∧
    (CreditBalance.add (U32_CARD - 1) 1).2 = 0 ∧
    (CreditBalance.add (U32_CARD - 1) 1).2 ≠
      min ((U32_CARD - 1) + 1) (U32_CARD - 1) := by
  refine ⟨by decide, by decide, by decide⟩

/-- C2 (amended): `CreditBalance::add(n)` wraps modulo 2^32: the stored
balance and the returned total both become `(c + n) mod 2^32` — equal to
`c + n` whenever that sum does not overflow — and the stored balance
always stays below 2^32. It does not saturate at `u32::MAX`. -/
theorem creditBalance_add_wraps (c n : Nat) :
    (CreditBalance.add c n).1 = (c + n) % U32_CARD ∧
    (CreditBalance.add c n).2 = (CreditBalance.add c n).1 ∧
    (CreditBalance.add c n).1 < U32_CARD ∧
    (c + n < U32_CARD → (CreditBalance.add c n).2 = c + n) := by
  refine ⟨rfl, rfl, Nat.mod_lt _ (by decide), fun h => ?_⟩
  simp [CreditBalance.add, CreditBalance.fetchAdd, Nat.mod_eq_of_lt h]

/-- Witness for `creditBalance_add_wraps` at `c = 7`, `n = 5`. -/
theorem creditBalance_add_wraps_witness :
    (CreditBalance.add 7 5).2 = 7 + 5 :=
  (creditBalance_add_wraps 7 5).2.2.2 (by decide)

/-- C3 counterexample: after a takeover of `(1, "workers")`, the
unconditional `unregister` performed by the displaced prior subscription
removes the new holder's registration (the stored sender is not compared
with the caller's). -/
theorem unregister_after_takeover_removes_new_holder :
    takeover2.2.2 = some takeover1.2.1 ∧
    takeover2.2.1 ≠ takeover1.2.1 ∧
    lookupSender ((takeover2.1.unregister ⟨1, "workers"⟩).active) ⟨1, "workers"⟩
      = none := by
  refine ⟨by decide, by decide, by decide⟩

/-- C3 (amended): `ConnectionRegistry::unregister(key)` takes no token and
removes the entry for `(topic_id, consumer_group)` unconditionally, so
after a takeover an unregister performed by the displaced prior
subscription also removes the new holder's registration; entries under
other keys are untouched. -/
theorem unregister_removes_unconditionally (s : ConnectionRegistry)
    (k k' : ConsumerGroupKey) (hne : k' ≠ k) :
    lookupSender (s.unregister k).active k = none ∧
    lookupSender (s.unregister k).active k' = lookupSender s.active k' := by
  exact ⟨lookupSender_removeKey_self s.active k,
    lookupSender_removeKey_other s.active k k' hne⟩

/-- Witness for `unregister_removes_unconditionally` on a one-entry
registry. -/
theorem unregister_removes_unconditionally_witness :
    lookupSender ((takeover1.1.unregister ⟨1, "workers"⟩).active) ⟨1, "workers"⟩
      = none :=
  (unregister_removes_unconditionally takeover1.1 ⟨1, "workers"⟩ ⟨2, "others"⟩
    (by decide)).1

/-- C4: `handle_publish` maps writer errors exactly as specified: a
closed intake channel to `Unavailable("server is shutting down")`, a
database error mentioning "disk" or "full" to
`Unavailable("storage error: …")`, any other database error to
`Internal("database error: …")`, a writer-thread panic to
`Internal("internal error")`; and no writer error yields a success
response. -/
theorem writer_error_mapping (msg : String) :
    mapWriterError .channelClosed = Status.unavailable "server is shutting down" ∧
    ((strContains msg "disk" || strContains msg "full") = true →
      mapWriterError (.database msg) = Status.unavailable ("storage error: " ++ msg)) ∧
    ((strContains msg "disk" || strContains msg "full") = false →
      mapWriterError (.database msg) = Status.internal ("database error: " ++ msg)) ∧
    mapWriterError .threadPanic = Status.internal "internal error" ∧
    (∀ e : WriterError, awaitWriter (.error e) = .error (mapWriterError e)) ∧
    (∀ (e : WriterError) (r : PublishResponse), awaitWriter (.error e) ≠ .ok r) := by
  refine ⟨rfl, fun h => ?_, fun h => ?_, rfl, fun e => rfl, fun e r => by
    simp [awaitWriter]⟩
  · simp [mapWriterError, h]
  · simp [mapWriterError, h]

/-- Witness for `writer_error_mapping` on the message "disk is full". -/
theorem writer_error_mapping_witness :
    mapWriterError (.database "disk is full")
      = Status.unavailable ("storage error: " ++ "disk is full") :=
  (writer_error_mapping "disk is full").2.1 (by decide)

/-- C7: in linearized semantics `try_consume_many(n)` consumes exactly
`min(c, n)` leaving `c - min(c, n)`; `try_consume` succeeds and
decrements by one exactly when the balance is positive; and the balance
visible through `available()` never leaves `[0, u32::MAX]`. -/
theorem try_consume_many_exact (c n : Nat) (h : c ≤ U32_CARD - 1) :
    CreditBalance.try_consume_many c n = (min c n, c - min c n) ∧
    CreditBalance.available (CreditBalance.try_consume_many c n).2 ≤ U32_CARD - 1 ∧
    (0 < c → CreditBalance.try_consume c = (true, c - 1)) ∧
    (c = 0 → CreditBalance.try_consume c = (false, c)) ∧
    CreditBalance.available (CreditBalance.try_consume c).2 ≤ U32_CARD - 1 := by
  by_cases hc : c = 0
  · subst hc
    refine ⟨?_, ?_, fun h0 => absurd h0 (by simp), fun _ => rfl, ?_⟩
    · simp [CreditBalance.try_consume_many]
    · simp [CreditBalance.try_consume_many, CreditBalance.available]
    · simp [CreditBalance.try_consume, CreditBalance.available]
  · refine ⟨?_, ?_, fun _ => by simp [CreditBalance.try_consume, hc], fun h0 => absurd h0 hc, ?_⟩
    · simp only [CreditBalance.try_consume_many, hc, if_false]
    · simp only [CreditBalance.try_consume_many, hc, if_false, CreditBalance.available]
      omega
    · simp only [CreditBalance.try_consume, hc, if_false, CreditBalance.available]
      omega

/-- Witness for `try_consume_many_exact` at `c = 5`, `n = 3`. -/
theorem try_consume_many_exact_witness :
    CreditBalance.try_consume_many 5 3 = (min 5 3, 5 - min 5 3) :=
  (try_consume_many_exact 5 3 (by decide)).1

/-- C10: `NotificationBus::notify` is total (never fails): with no
subscribers it returns 0 and the notification is dropped; otherwise it
returns the number of receivers and appends the `(topic_id, max_seq)`
pair unchanged to each current subscriber's queue. -/
theorem notify_total (bus : NotificationBus) (t m : Int) :
    (bus.receivers = [] → bus.notify t m = (bus, 0)) ∧
    (bus.receivers ≠ [] →
      (bus.notify t m).2 = bus.receiver_count ∧
      (bus.notify t m).1.receivers.length = bus.receivers.length ∧
      ∀ (i : Nat) (q : List NewDataNotification), bus.receivers[i]? = some q →
        (bus.notify t m).1.receivers[i]? = some (q ++ [⟨t, m⟩])) := by
  constructor
  · intro h
    simp [NotificationBus.notify, h]
  · intro h
    have hne : bus.receivers.isEmpty = false := by
      simpa [List.isEmpty_iff] using h
    refine ⟨by simp [NotificationBus.notify, NotificationBus.receiver_count, hne],
      by simp [NotificationBus.notify, hne], fun i q hq => ?_⟩
    simp [NotificationBus.notify, hne, List.getElem?_map, hq]

/-- Witness for `notify_total` on a bus with two subscribers. -/
theorem notify_total_witness :
    (NotificationBus.notify ⟨[[], []]⟩ 1 42).2
      = NotificationBus.receiver_count ⟨[[], []]⟩ :=
  ((notify_total ⟨[[], []]⟩ 1 42).2 (by simp)).1

/-- C6: `register` installs the fresh sender under the key and fires
exactly the displaced prior sender (the previous value stored for the
key), and after any sequence of register/unregister operations from the
empty registry at most one entry exists per `(topic_id, consumer_group)`
key. -/
theorem register_takeover_unique (s : ConnectionRegistry)
    (k : ConsumerGroupKey) (ops : List RegOp) :
    lookupSender (s.register k).1.active k = some (s.register k).2.1 ∧
    (s.register k).2.2 = lookupSender s.active k ∧
    countKey (runRegOps ops).active k ≤ 1 := by
  refine ⟨?_, rfl, ?_⟩
  · simp [ConnectionRegistry.register, lookupSender_cons]
  · exact regInvariant_preserved ops ConnectionRegistry.new
      (fun k' => by simp [ConnectionRegistry.new, countKey]) k

section BatchLemmas

/-- State after pushing a timestamped list of items: items are
accumulated in FIFO order, `batch_start` is the instant of the first
push of the batch, and the configuration is unchanged. -/
lemma pushAll_spec {T : Type} (ps : List (Nat × T)) (b : BatchAccumulator T) :
    (BatchAccumulator.pushAll b ps).items = b.items ++ ps.map Prod.snd ∧
    (BatchAccumulator.pushAll b ps).batch_start =
      (if b.batch_start.isNone then (ps.head?).map Prod.fst else b.batch_start) ∧
    (BatchAccumulator.pushAll b ps).config = b.config := by
  induction ps generalizing b with
  | nil =>
      cases hb : b.batch_start <;> simp [BatchAccumulator.pushAll, hb]
  | cons p rest ih =>
      obtain ⟨t, x⟩ := p
      have hstep : BatchAccumulator.pushAll b ((t, x) :: rest)
          = BatchAccumulator.pushAll ((b.push t x).1) rest := rfl
      rw [hstep]
      obtain ⟨hi, hs, hc⟩ := ih ((b.push t x).1)
      refine ⟨?_, ?_, hc⟩
      · rw [hi]; simp [BatchAccumulator.push]
      · rw [hs]
        cases hb : b.batch_start with
        | none => simp [BatchAccumulator.push, hb]
        | some s => simp [BatchAccumulator.push, hb]

/-- `is_ready` characterized: true exactly for a non-empty batch that
has hit the size limit or whose first item is at least
`max_batch_delay` old. -/
lemma is_ready_iff {T : Type} (b : BatchAccumulator T) (now : Nat) :
    b.is_ready now = true ↔ b.items ≠ [] ∧
      (b.config.max_batch_size ≤ b.items.length ∨
        ∃ st, b.batch_start = some st ∧ b.config.max_batch_delay ≤ now - st) := by
  unfold BatchAccumulator.is_ready
  by_cases he : b.items.isEmpty
  · simp [he, List.isEmpty_iff.mp he]
  · have hne : b.items ≠ [] := by simpa [List.isEmpty_iff] using he
    by_cases hs : b.config.max_batch_size ≤ b.items.length
    · simp [he, hs, hne]
    · cases hb : b.batch_start with
      | none => simp [he, hs, hb, hne]
      | some st => simp [he, hs, hb, hne]

end BatchLemmas

/-- C9: the bool returned by `push` is `is_ready` of the new state at the
push instant; `is_ready` holds exactly for a non-empty batch that
reached `max_batch_size` or whose first item was pushed at least
`max_batch_delay` ago (`batch_start` is the instant of the first push);
`drain` returns the items in push (FIFO) order and leaves the
accumulator empty with the delay timer reset. -/
theorem batch_accumulator_ready_fifo {T : Type} (b : BatchAccumulator T)
    (now : Nat) (item : T) (cfg : BatchConfig) (ps : List (Nat × T)) :
    ((b.push now item).2 = (b.push now item).1.is_ready now) ∧
    (b.is_ready now = true ↔ b.items ≠ [] ∧
      (b.config.max_batch_size ≤ b.items.length ∨
        ∃ st, b.batch_start = some st ∧ b.config.max_batch_delay ≤ now - st)) ∧
    ((BatchAccumulator.pushAll (BatchAccumulator.new T cfg) ps).items
      = ps.map Prod.snd) ∧
    ((BatchAccumulator.pushAll (BatchAccumulator.new T cfg) ps).batch_start
      = (ps.head?).map Prod.fst) ∧
    (((BatchAccumulator.pushAll (BatchAccumulator.new T cfg) ps).drain).2
      = ps.map Prod.snd) ∧
    ((b.drain).2 = b.items ∧ (b.drain).1.items = [] ∧
      (b.drain).1.batch_start = none) := by
  obtain ⟨hi, hs, -⟩ := pushAll_spec ps (BatchAccumulator.new T cfg)
  refine ⟨rfl, is_ready_iff b now, ?_, ?_, ?_, rfl, rfl, rfl⟩
  · simpa [BatchAccumulator.new] using hi
  · simpa [BatchAccumulator.new] using hs
  · simpa [BatchAccumulator.new, BatchAccumulator.drain] using hi

/-- C8: `list_topics` returns exactly the rows of the `topics` table
(a permutation; each known topic exactly once given the `name UNIQUE`
constraint), sorted ascending by name, and the ListTopics RPC preserves
this: its `Topic` list is sorted by name and has one entry per table
row. -/
theorem list_topics_sorted_unique (table : List TopicRow)
    (h : (table.map TopicRow.name).Nodup) :
    (list_topics table).Perm table ∧
    List.Sorted byName (list_topics table) ∧
    ((list_topics table).map TopicRow.name).Nodup ∧
    (∀ r ∈ table, (list_topics table).count r = 1) ∧
    List.Sorted (fun a b : Topic => a.name ≤ b.name) (handle_list_topics table) ∧
    (handle_list_topics table).length = table.length := by
  have hperm : (list_topics table).Perm table :=
    List.perm_insertionSort byName table
  have hsorted : List.Sorted byName (list_topics table) :=
    List.sorted_insertionSort byName table
  refine ⟨hperm, hsorted, ?_, ?_, ?_, ?_⟩
  · exact ((hperm.map TopicRow.name).nodup_iff).mpr h
  · intro r hr
    rw [hperm.count_eq r]
    exact List.count_eq_one_of_mem (List.Nodup.of_map _ h) hr
  · exact List.pairwise_map.mpr hsorted
  · simp [handle_list_topics, hperm.length_eq]

/-- Witness for `list_topics_sorted_unique` on the two-topic table of
spec scenario 7. -/
theorem list_topics_sorted_unique_witness :
    List.Sorted byName (list_topics [⟨"b-topic", 5⟩, ⟨"a-topic", 7⟩]) :=
  (list_topics_sorted_unique [⟨"b-topic", 5⟩, ⟨"a-topic", 7⟩] (by decide)).2.1

/-- C1: divergence between the two `handle_publish` copies on topic
`"a/b"`. The root-crate handler (`src/service/publish.rs`) performs no
character-class check and submits the request to the writer, while the
workspace-crate handler rejects it with `InvalidArgument` — the outcome
the repository's own test
(`tests/publish_test.rs::test_publish_topic_invalid_chars_fails`)
requires. -/
theorem publish_topic_charclass_divergence :
    handle_publish_root (fun _ => Except.ok "x") "mid"
        ⟨"a/b", [], []⟩ = Except.ok ⟨"a/b", "mid", none, none⟩ ∧
    handle_publish (fun _ => Except.ok "x") "mid" ⟨"a/b", [], []⟩
      = Except.error (Status.invalidArgument
          "topic name must contain only alphanumeric characters, dashes, underscores, or dots") :=
  ⟨rfl, rfl⟩

/-- C5: `handle_publish` validates before submitting, in source order:
empty topic → `InvalidArgument`; topic over 255 bytes →
`InvalidArgument`; payload over 4 MiB → `ResourceExhausted`; a non-empty
attribute map failing JSON serialization → `InvalidArgument`; a request
passing every check is submitted to the writer with its topic and the
generated message id. -/
theorem publish_validation_order
    (ser : List (String × String) → Except String String)
    (mid : String) (req : PublishRequest) :
    (req.topic.isEmpty = true →
      handle_publish ser mid req
        = .error (Status.invalidArgument "topic cannot be empty")) ∧
    (req.topic.isEmpty = false → 255 < req.topic.utf8ByteSize →
      handle_publish ser mid req
        = .error (Status.invalidArgument "topic name too long (max 255 characters)")) ∧
    (req.topic.isEmpty = false → req.topic.utf8ByteSize ≤ 255 →
      req.topic.toList.all allowedTopicChar = true →
      MAX_PAYLOAD_SIZE < req.payload.length →
      handle_publish ser mid req
        = .error (Status.resourceExhausted
            ("payload too large: " ++ toString req.payload.length ++ " bytes (max "
              ++ toString MAX_PAYLOAD_SIZE ++ " bytes)"))) ∧
    (∀ e, req.topic.isEmpty = false → req.topic.utf8ByteSize ≤ 255 →
      req.topic.toList.all allowedTopicChar = true →
      req.payload.length ≤ MAX_PAYLOAD_SIZE →
      req.attributes.isEmpty = false → ser req.attributes = .error e →
      handle_publish ser mid req
        = .error (Status.invalidArgument ("invalid attributes: " ++ e))) ∧
    (req.topic.isEmpty = false → req.topic.utf8ByteSize ≤ 255 →
      req.topic.toList.all allowedTopicChar = true →
      req.payload.length ≤ MAX_PAYLOAD_SIZE →
      (req.attributes.isEmpty = true ∨ ∃ s, ser req.attributes = .ok s) →
      ∃ sub : Submission, handle_publish ser mid req = .ok sub ∧
        sub.topic = req.topic ∧ sub.message_id = mid) := by
  have charsOk : ∀ h3 : req.topic.toList.all allowedTopicChar = true,
      ¬∃ x ∈ req.topic.data, allowedTopicChar x = false := by
    intro h3 hex
    obtain ⟨x, hx, hfalse⟩ := hex
    have hx' := List.all_eq_true.mp h3 x hx
    simp [hfalse] at hx'
  refine ⟨fun h1 => ?_, fun h1 h2 => ?_, fun h1 h2 h3 h4 => ?_,
    fun e h1 h2 h3 h4 h5 h6 => ?_, fun h1 h2 h3 h4 h5 => ?_⟩
  · simp [handle_publish, h1]
  · simp [handle_publish, h1, h2]
  · simp [handle_publish, h1, Nat.not_lt.mpr h2, charsOk h3, h4]
  · simp [handle_publish, attrsStage, h1, Nat.not_lt.mpr h2, charsOk h3,
      Nat.not_lt.mpr h4, h5, h6]
  · by_cases hemp : req.attributes.isEmpty = true
    · refine ⟨{ topic := req.topic, message_id := mid,
                payload := if req.payload.isEmpty then none else some req.payload,
                attributes := none }, ?_, rfl, rfl⟩
      simp [handle_publish, attrsStage, h1, Nat.not_lt.mpr h2, charsOk h3,
        Nat.not_lt.mpr h4, hemp]
    · have hne : req.attributes.isEmpty = false := by
        simpa using hemp
      cases h5 with
      | inl habs => exact absurd habs hemp
      | inr hok =>
          obtain ⟨s, hs⟩ := hok
          refine ⟨{ topic := req.topic, message_id := mid,
                    payload := if req.payload.isEmpty then none else some req.payload,
                    attributes := some s }, ?_, rfl, rfl⟩
          simp [handle_publish, attrsStage, h1, Nat.not_lt.mpr h2, charsOk h3,
            Nat.not_lt.mpr h4, hne, hs]

/-- Witness for `publish_validation_order`: a fully valid request is
submitted. -/
theorem publish_validation_order_witness :
    ∃ sub : Submission,
      handle_publish (fun _ => Except.ok "x") "mid" ⟨"t", [], []⟩ = .ok sub ∧
      sub.topic = "t" ∧ sub.message_id = "mid" :=
  (publish_validation_order (fun _ => Except.ok "x") "mid"
      ⟨"t", [], []⟩).2.2.2.2 rfl (by decide) (by decide) (by decide)
    (Or.inl rfl)

end Sluice
